import Mathlib

/-!
# Knative CloudEvents demo: publisher, consumer and display

A shallow embedding of the three Go programs of the repository

* `apps/event-publisher/main.go` (`main`, `handleRequest`),
* `apps/event-consumer/main.go` (`receiveEvent`, and the callback `main` registers),
* `apps/event-display/main.go` (`receiveHandler`, `main`),

followed by theorems about them.

Conventions.  A Go `string` or `[]byte` is a Lean `String`, a text; a Go `error`
is an `Option String`: `none` is `nil`, `some msg` an error with text `msg`.  A
call that returns `(value, error)` is an `Except String value`.  What a function
does to the outside world (the HTTP response it writes, the log lines it
prints, the calls it makes to the SDK) is returned as data, so that it can be
inspected by the theorems.  What the outside world answers (the result of
reading the body, the random identifier, the outcome of a send) is passed in.

The CloudEvents SDK, `encoding/json`, `net/http` and `google/uuid` are libraries,
not code of the repository.  Of them only what the three programs use is
written down: as a parameter where the programs only look at the outcome
(`ceClient.Send`, of which `handleRequest` tests nothing but whether the result
is `nil`), as a definition where a theorem needs the behaviour itself (the JSON
encoding, `DataAs`, and `httpSend`, the result the SDK's HTTP `Send` returns for
an answer of the destination).
-/

namespace Knative

/-- A Go `error`: `none` is `nil`. -/
abbrev GoError := Option String

/-- `os.Getenv(key)`: the value, or the empty string when the variable is unset. -/
def Getenv (environ : String → Option String) (key : String) : String :=
  (environ key).getD ""

/-! ## net/http: the part the handlers use -/

/-- The constant `http.MethodPost`. -/
def MethodPost : String := "POST"

/-- The constant `http.StatusOK`. -/
def StatusOK : Nat := 200

/-- The constant `http.StatusMethodNotAllowed`. -/
def StatusMethodNotAllowed : Nat := 405

/-- The constant `http.StatusInternalServerError`. -/
def StatusInternalServerError : Nat := 500

/-- What a `http.ResponseWriter` has been told so far: the status code once the
header is written, and the body bytes. -/
structure ResponseWriter where
  status : Option Nat
  body : String
deriving DecidableEq, Repr

/-- The writer a handler receives: nothing written yet. -/
def ResponseWriter.fresh : ResponseWriter :=
  { status := none, body := "" }

/-- `w.WriteHeader(code)`: the first call fixes the status, later ones are ignored. -/
def ResponseWriter.WriteHeader (w : ResponseWriter) (code : Nat) : ResponseWriter :=
  match w.status with
  | none => { w with status := some code }
  | some _ => w

/-- `w.Write(p)`: writes the header with `http.StatusOK` if none was written, then
appends to the body. -/
def ResponseWriter.Write (w : ResponseWriter) (p : String) : ResponseWriter :=
  let w1 := w.WriteHeader StatusOK
  { w1 with body := w1.body ++ p }

/-- `http.Error(w, error, code)`: the status `code`, then the message and a newline. -/
def httpError (w : ResponseWriter) (error : String) (code : Nat) : ResponseWriter :=
  (w.WriteHeader code).Write (error ++ "\n")

/-- An incoming `*http.Request` as `handleRequest` sees it: the method, and what
`io.ReadAll(r.Body)` returns. -/
structure Request where
  method : String
  readAll : Except String String

/-! ## google/uuid -/

/-- A `uuid.UUID`: sixteen bytes. -/
structure UUID where
  byte : Fin 16 → Nat

/-- One hexadecimal digit, lower case. -/
def hexDigit (n : Nat) : Char :=
  "0123456789abcdef".data.getD (n % 16) '0'

/-- Two hexadecimal digits of a byte, high nibble first. -/
def hexByte (b : Nat) : List Char :=
  [hexDigit (b % 256 / 16), hexDigit (b % 256 % 16)]

/-- Modelled from the spec: the textual form of the random identifier (§4.1, a
version-4 random identifier), `uuid.UUID.String` of the google/uuid package,
which is not part of this repository: the sixteen bytes in hexadecimal, grouped
8-4-4-4-12 with dashes. -/
def UUID.String (u : UUID) : String :=
  ⟨hexByte (u.byte 0) ++ hexByte (u.byte 1) ++ hexByte (u.byte 2) ++ hexByte (u.byte 3)
    ++ '-' :: hexByte (u.byte 4) ++ hexByte (u.byte 5)
    ++ '-' :: hexByte (u.byte 6) ++ hexByte (u.byte 7)
    ++ '-' :: hexByte (u.byte 8) ++ hexByte (u.byte 9)
    ++ '-' :: hexByte (u.byte 10) ++ hexByte (u.byte 11) ++ hexByte (u.byte 12)
    ++ hexByte (u.byte 13) ++ hexByte (u.byte 14) ++ hexByte (u.byte 15)⟩

/-! ## CloudEvents SDK: the event -/

/-- The constant `event.ApplicationJSON`. -/
def ApplicationJSON : String := "application/json"

/-- An `event.Event`: the attributes of the envelope and the encoded data. -/
structure Event where
  specVersion : String
  id : String
  source : String
  type : String
  subject : Option String
  dataContentType : Option String
  time : Option String
  data : String
deriving DecidableEq, Repr

/-- `event.New()`: a version 1.0 event with nothing set. -/
def Event.New : Event :=
  { specVersion := "1.0", id := "", source := "", type := "", subject := none,
    dataContentType := none, time := none, data := "" }

/-- `e.SetID(id)`. -/
def Event.SetID (e : Event) (id : String) : Event := { e with id := id }

/-- `e.SetType(t)`. -/
def Event.SetType (e : Event) (t : String) : Event := { e with type := t }

/-- `e.SetSource(s)`. -/
def Event.SetSource (e : Event) (s : String) : Event := { e with source := s }

/-! ## Required attributes -/

/-- `unicode.IsSpace`: the white space that `strings.TrimSpace` removes. -/
def isSpace (c : Char) : Bool :=
  c = '\t' ∨ c = '\n' ∨ c = '\x0b' ∨ c = '\x0c' ∨ c = '\r' ∨ c = ' ' ∨ c.toNat = 0x85 ∨
    c.toNat = 0xA0 ∨ c.toNat = 0x1680 ∨ (0x2000 ≤ c.toNat ∧ c.toNat ≤ 0x200A) ∨
    c.toNat = 0x2028 ∨ c.toNat = 0x2029 ∨ c.toNat = 0x202F ∨ c.toNat = 0x205F ∨
    c.toNat = 0x3000

/-- `strings.TrimSpace(s)`: `s` without its leading and trailing white space. -/
def TrimSpace (s : String) : String :=
  ⟨((s.data.dropWhile isSpace).reverse.dropWhile isSpace).reverse⟩

/-- Modelled from the spec: the required-attribute invariant (§3, §4.1, §8), checked
before an envelope is transmitted and after it is received: `id`, `source` and `type`
are not empty after trimming. -/
def Event.Valid (e : Event) : Bool :=
  TrimSpace e.id ≠ "" && TrimSpace e.source ≠ "" && TrimSpace e.type ≠ ""

/-! ## JSON

The data of the events is JSON text (scenarios B and C of the specification).
The encoder and the decoder are those of Go's `encoding/json`, library code that
is not part of the repository; they are written out here for the one shape the
programs use, an object whose field `message` is a string.  JSON text is a list
of characters. -/

namespace JSON

/-- Four hexadecimal digits of a number below 65536. -/
def hex4 (n : Nat) : List Char :=
  [hexDigit (n / 4096), hexDigit (n / 256), hexDigit (n / 16), hexDigit n]

/-- The encoding of one character inside a JSON string literal: the quote, the
backslash and the control characters are escaped, and so are `<`, `>`, `&`, U+2028
and U+2029; every other character stands for itself. -/
def escapeChar (c : Char) : List Char :=
  if c = '"' then ['\\', '"']
  else if c = '\\' then ['\\', '\\']
  else if c = '\x08' then ['\\', 'b']
  else if c = '\x0c' then ['\\', 'f']
  else if c = '\n' then ['\\', 'n']
  else if c = '\r' then ['\\', 'r']
  else if c = '\t' then ['\\', 't']
  else if c.toNat < 0x20 ∨ c = '<' ∨ c = '>' ∨ c = '&' ∨ c.toNat = 0x2028 ∨ c.toNat = 0x2029 then
    '\\' :: 'u' :: hex4 c.toNat
  else [c]

/-- A string as a JSON string literal, between quotes. -/
def appendString (s : List Char) : List Char :=
  '"' :: (s.flatMap escapeChar ++ ['"'])

/-- The value of a hexadecimal digit of either case. -/
def hexVal (c : Char) : Option Nat :=
  if '0' ≤ c ∧ c ≤ '9' then some (c.toNat - '0'.toNat)
  else if 'a' ≤ c ∧ c ≤ 'f' then some (c.toNat - 'a'.toNat + 10)
  else if 'A' ≤ c ∧ c ≤ 'F' then some (c.toNat - 'A'.toNat + 10)
  else none

/-- The number written by the first four characters, hexadecimal digits, and the rest. -/
def getu4 : List Char → Option (Nat × List Char)
  | a :: b :: c :: d :: rest =>
    match hexVal a, hexVal b, hexVal c, hexVal d with
    | some x, some y, some z, some w => some (((x * 16 + y) * 16 + z) * 16 + w, rest)
    | _, _, _, _ => none
  | _ => none

/-- The replacement character U+FFFD. -/
def replacementChar : Char := Char.ofNat 0xFFFD

/-- The character written by `\u` and what follows it: four hexadecimal digits, and
for a high surrogate the low surrogate that follows it; a surrogate without its
partner is read as the replacement character. -/
def unquoteU (r : List Char) : Option (Char × List Char) :=
  match getu4 r with
  | none => none
  | some (rr, r1) =>
    if 0xD800 ≤ rr ∧ rr < 0xE000 then
      match r1 with
      | '\\' :: 'u' :: r2 =>
        match getu4 r2 with
        | some (rr1, r3) =>
          if rr < 0xDC00 ∧ 0xDC00 ≤ rr1 ∧ rr1 < 0xE000 then
            some (Char.ofNat ((rr - 0xD800) * 1024 + (rr1 - 0xDC00) + 0x10000), r3)
          else some (replacementChar, r1)
        | none => some (replacementChar, r1)
      | _ => some (replacementChar, r1)
    else some (Char.ofNat rr, r1)

/-- The character after a backslash inside a string literal, and the rest. -/
def unquoteEscape : List Char → Option (Char × List Char)
  | [] => none
  | e :: r =>
    if e = '"' then some ('"', r)
    else if e = '\\' then some ('\\', r)
    else if e = '/' then some ('/', r)
    else if e = 'b' then some ('\x08', r)
    else if e = 'f' then some ('\x0c', r)
    else if e = 'n' then some ('\n', r)
    else if e = 'r' then some ('\r', r)
    else if e = 't' then some ('\t', r)
    else if e = 'u' then unquoteU r
    else none

/-- The next character of a string literal, and the rest: an escape sequence, or a
character that is neither a quote nor a control character. -/
def unquoteChar : List Char → Option (Char × List Char)
  | [] => none
  | c :: rest =>
    if c = '\\' then unquoteEscape rest
    else if c.toNat < 0x20 ∨ c = '"' then none
    else some (c, rest)

/-- The characters of a string literal after its opening quote, up to the closing
quote, and the rest. -/
def parseString : Nat → List Char → Option (List Char × List Char)
  | 0, _ => none
  | _ + 1, [] => none
  | fuel + 1, c :: rest =>
    if c = '"' then some ([], rest)
    else
      match unquoteChar (c :: rest) with
      | none => none
      | some (d, r) =>
        match parseString fuel r with
        | none => none
        | some (s, r1) => some (d :: s, r1)

/-- A JSON value. -/
inductive Value where
  | null
  | bool (b : Bool)
  | number (literal : List Char)
  | string (s : List Char)
  | array (items : List Value)
  | object (members : List (List Char × Value))

/-- Insignificant white space is dropped. -/
def skipWS : List Char → List Char
  | c :: rest => if c = ' ' ∨ c = '\t' ∨ c = '\r' ∨ c = '\n' then skipWS rest else c :: rest
  | [] => []

/-- The leading decimal digits, and the rest. -/
def digits : List Char → List Char × List Char
  | c :: rest =>
    if '0' ≤ c ∧ c ≤ '9' then ((digits rest).1.cons c, (digits rest).2) else ([], c :: rest)
  | [] => ([], [])

/-- The integer part of a number: a single zero, or a non-zero digit and more digits. -/
def parseInt : List Char → Option (List Char × List Char)
  | '0' :: rest => some (['0'], rest)
  | c :: rest =>
    if '1' ≤ c ∧ c ≤ '9' then some (c :: (digits rest).1, (digits rest).2) else none
  | [] => none

/-- The optional fraction of a number. -/
def parseFrac : List Char → Option (List Char × List Char)
  | '.' :: rest =>
    match digits rest with
    | ([], _) => none
    | (ds, r) => some ('.' :: ds, r)
  | cs => some ([], cs)

/-- The optional exponent of a number. -/
def parseExp : List Char → Option (List Char × List Char)
  | e :: rest =>
    if e = 'e' ∨ e = 'E' then
      match rest with
      | s :: rest1 =>
        if s = '+' ∨ s = '-' then
          match digits rest1 with
          | ([], _) => none
          | (ds, r) => some (e :: s :: ds, r)
        else
          match digits rest with
          | ([], _) => none
          | (ds, r) => some (e :: ds, r)
      | [] => none
    else some ([], e :: rest)
  | [] => some ([], [])

/-- A number literal, and the rest. -/
def parseNumber (cs : List Char) : Option (List Char × List Char) :=
  let signed : List Char × List Char :=
    match cs with
    | '-' :: rest => (['-'], rest)
    | _ => ([], cs)
  match parseInt signed.2 with
  | none => none
  | some (i, r1) =>
    match parseFrac r1 with
    | none => none
    | some (f, r2) =>
      match parseExp r2 with
      | none => none
      | some (e, r3) => some (signed.1 ++ i ++ f ++ e, r3)

/-- The input after the literal name `name`, when it starts with it. -/
def skipName : List Char → List Char → Option (List Char)
  | [], cs => some cs
  | _ :: _, [] => none
  | n :: name, c :: cs => if n = c then skipName name cs else none

mutual

/-- A value, with white space before it, and the rest. -/
def parseValue : Nat → List Char → Option (Value × List Char)
  | 0, _ => none
  | fuel + 1, cs =>
    match skipWS cs with
    | [] => none
    | c :: rest =>
      if c = '"' then
        match parseString (fuel + 1) rest with
        | some (s, r) => some (.string s, r)
        | none => none
      else if c = '{' then
        match skipWS rest with
        | [] => none
        | d :: r =>
          if d = '}' then some (.object [], r)
          else
            match parseMembers fuel (d :: r) with
            | some (ms, r1) => some (.object ms, r1)
            | none => none
      else if c = '[' then
        match skipWS rest with
        | [] => none
        | d :: r =>
          if d = ']' then some (.array [], r)
          else
            match parseItems fuel (d :: r) with
            | some (vs, r1) => some (.array vs, r1)
            | none => none
      else if c = 't' then (skipName "rue".data rest).map fun r => (.bool true, r)
      else if c = 'f' then (skipName "alse".data rest).map fun r => (.bool false, r)
      else if c = 'n' then (skipName "ull".data rest).map fun r => (.null, r)
      else
        match parseNumber (c :: rest) with
        | some (n, r) => some (.number n, r)
        | none => none

/-- The members of an object after the opening brace, up to the closing brace,
and the rest. -/
def parseMembers : Nat → List Char → Option (List (List Char × Value) × List Char)
  | 0, _ => none
  | fuel + 1, cs =>
    match skipWS cs with
    | [] => none
    | q :: rest =>
      if q = '"' then
        match parseString (fuel + 1) rest with
        | none => none
        | some (key, r1) =>
          match skipWS r1 with
          | [] => none
          | colon :: r2 =>
            if colon = ':' then
              match parseValue fuel r2 with
              | none => none
              | some (v, r3) =>
                match skipWS r3 with
                | [] => none
                | d :: r4 =>
                  if d = '}' then some ([(key, v)], r4)
                  else if d = ',' then
                    match parseMembers fuel r4 with
                    | some (ms, r5) => some ((key, v) :: ms, r5)
                    | none => none
                  else none
            else none
      else none

/-- The items of an array after the opening bracket, up to the closing bracket,
and the rest. -/
def parseItems : Nat → List Char → Option (List Value × List Char)
  | 0, _ => none
  | fuel + 1, cs =>
    match parseValue fuel cs with
    | none => none
    | some (v, r1) =>
      match skipWS r1 with
      | [] => none
      | d :: r2 =>
        if d = ']' then some ([v], r2)
        else if d = ',' then
          match parseItems fuel r2 with
          | some (vs, r3) => some (v :: vs, r3)
          | none => none
        else none

end

/-- A whole JSON text: one value, white space around it, nothing else. -/
def parse (cs : List Char) : Option Value :=
  match parseValue (cs.length + 1) cs with
  | some (v, rest) => if skipWS rest = [] then some v else none
  | none => none

/-- The folding of one character of a key, for the match of a key with a field name
that ignores case. -/
def foldChar (c : Char) : Char :=
  if 'a' ≤ c ∧ c ≤ 'z' then Char.ofNat (c.toNat - 32)
  else if c.toNat = 0x17F then 'S'
  else if c.toNat = 0x212A then 'K'
  else c

/-- Whether an object key names the field `name`. -/
def matchesField (key name : List Char) : Bool :=
  key.map foldChar = name.map foldChar

/-- The members of an object are assigned to the target `struct { Message string }`
in order: a string under a key that names the field is stored, `null` leaves the
field as it is, any other value is a type error, of which the first is kept;
other keys are skipped.  The state is the field and the error so far. -/
def assignMessage : List (List Char × Value) → List Char × Option String →
    List Char × Option String
  | [], st => st
  | (key, v) :: ms, (message, err) =>
    if matchesField key "message".data then
      match v with
      | .string s => assignMessage ms (s, err)
      | .null => assignMessage ms (message, err)
      | _ =>
        assignMessage ms (message,
          err.orElse fun _ => some "json: cannot unmarshal into Go struct field .message of type string")
    else assignMessage ms (message, err)

/-- Modelled from the spec: DecodeDataAs (§4.1) for the consumer's target shape, the
`json.Unmarshal` of Go into `struct { Message string }` with the field tagged
`message`, library code that is not part of this repository.  The decoded
`Message`, or the error when the bytes do not parse into the shape. -/
def Unmarshal (data : String) : Except String String :=
  match parse data.data with
  | none => .error "invalid character"
  | some .null => .ok ""
  | some (.object ms) =>
    match assignMessage ms ([], none) with
    | (message, none) => .ok ⟨message⟩
    | (_, some err) => .error err
  | some _ => .error "json: cannot unmarshal into Go value of type struct"

/-- The members of an object: each key and value as a string literal with a colon
between them, the members separated by commas. -/
def marshalMembers : List (String × String) → List Char
  | [] => []
  | [(k, v)] => appendString k.data ++ ':' :: appendString v.data
  | (k, v) :: rest =>
    appendString k.data ++ ':' :: appendString v.data ++ ',' :: marshalMembers rest

/-- Modelled from the spec: the data of scenario B, Go's `json.Marshal` of a
`map[string]string`, library code that is not part of this repository: the
object with the entries of the map between braces.  A map is the list of its
entries in the order of their keys, the order in which Go writes them. -/
def Marshal (obj : List (String × String)) : String :=
  ⟨'\x7b' :: (marshalMembers obj ++ ['\x7d'])⟩

end JSON

/-! ## CloudEvents SDK: encoding and decoding the data -/

/-- `e.SetData(contentType, obj)` for `obj` a `map[string]string`: records the
content type, encodes `obj` under it and stores the bytes.  The encoder for
`application/json` is `json.Marshal`; `failure` is the error it returns, if it
returns one.  The event after the call, and the error. -/
def Event.SetData (e : Event) (contentType : String) (obj : List (String × String))
    (failure : GoError) : Event × GoError :=
  let e1 := { e with dataContentType := some contentType }
  if contentType = ApplicationJSON then
    match failure with
    | some err => (e1, some err)
    | none => ({ e1 with data := JSON.Marshal obj }, none)
  else (e1, some ("[encode] unsupported content type \"" ++ contentType ++ "\""))

/-- Modelled from the spec: DecodeDataAs (§4.1), `e.DataAs(data)` of the SDK for the
consumer's target shape, code that is not part of this repository.  An event
without data leaves the target as it is; data is decoded as JSON when the
content type is `application/json` or absent; any other content type is not one
the decoder recognises. -/
def DataAs (e : Event) : Except String String :=
  if e.data = "" then .ok ""
  else
    match e.dataContentType with
    | none => JSON.Unmarshal e.data
    | some contentType =>
      if contentType = ApplicationJSON then JSON.Unmarshal e.data
      else .error ("[decode] unsupported content type \"" ++ contentType ++ "\"")

/-! ## CloudEvents SDK: sending -/

/-- The answer of the destination to one delivery: a response with a status code,
or a failure of the transport with its description. -/
inductive Delivery where
  | status (code : Nat)
  | failed (err : String)
deriving DecidableEq, Repr

/-- Modelled from the spec: the outcome of a delivery (§4.2): `Accepted` for a 2xx
status, `Rejected` for any other status and for a failure of the transport. -/
def Delivery.accepted : Delivery → Bool
  | .status code => code / 100 = 2
  | .failed _ => false

/-- The result of `Send` of the SDK's HTTP protocol (sdk-go v2, `protocol/http`),
library code that is not part of this repository, for an answer of the
destination.  For a response it is a result that carries the status code and
wraps the acknowledgement for a 2xx status, the refusal for any other; its text
is the status code and a colon.  For a failure of the transport it is the
failure.  The result is never `nil`, whatever the destination answers: an
acknowledged delivery is told from a refused one by `IsACK`, not by a
comparison with `nil`. -/
def httpSend : Delivery → GoError
  | .status code => some (toString code ++ ": ")
  | .failed err => some err

/-! ## event-publisher -/

namespace Publisher

/-- The `client.Client` built by `main`: the target of its protocol and the two
options it is created with. -/
structure Client where
  target : String
  timeNow : Bool
  uuids : Bool
deriving DecidableEq, Repr

/-- The package-level variables `sinkURL` and `ceClient`, as set by `main` before
the handler is registered. -/
structure Globals where
  sinkURL : String
  ceClient : Client
deriving DecidableEq, Repr

/-- What the world outside answers to one run of `handleRequest`: the identifier
`uuid.New()` returns, the error of the JSON encoder for the object given to
`SetData`, if it fails on it, and the result of `ceClient.Send(ctx, e)`: `none`
is `nil`, which `handleRequest` takes for the acknowledgement, and any other
result is taken for a NACK, whatever it carries. -/
structure World where
  uuidNew : UUID
  marshalError : List (String × String) → GoError
  send : Client → Event → GoError

/-- The calls `main` and `handleRequest` make to the outside world besides writing
the response, in order.  `fatal` is `log.Fatal` or `log.Fatalf`: the line is
printed and the process exits with status 1. -/
inductive Call where
  | fatal (line : String)
  | protocolNew (target : String)
  | clientNew (target : String)
  | handleFunc (pattern : String)
  | logPrintln (line : String)
  | listenAndServe (addr : String)
  | readAll
  | logPrintf (line : String)
  | eventNew
  | uuidNew
  | setData (message : String)
  | send (e : Event)
  | bodyClose
deriving DecidableEq, Repr

/-- The result of one run of `handleRequest`: the package-level variables, the
response writer and the calls made. -/
structure Handled where
  globals : Globals
  w : ResponseWriter
  calls : List Call
deriving DecidableEq, Repr

/-- The function `handleRequest(w, r)` of `apps/event-publisher/main.go`. -/
def handleRequest (env : World) (g : Globals) (w : ResponseWriter) (r : Request) : Handled :=
  if r.method ≠ MethodPost then
    { globals := g
      w := httpError w "Only POST method is accepted" StatusMethodNotAllowed
      calls := [] }
  else
    match r.readAll with
    | .error _ =>
      { globals := g
        w := httpError w "Error reading request body" StatusInternalServerError
        calls := [.readAll] }
    | .ok body =>
      let message := body
      let e0 := ((Event.New.SetID env.uuidNew.String).SetType "com.example.ping").SetSource
        "knative-demo-publisher"
      let built : List Call :=
        [.readAll, .logPrintf ("Received message to publish: " ++ message),
          .eventNew, .uuidNew, .setData message]
      let obj : List (String × String) := [("message", message)]
      match e0.SetData ApplicationJSON obj (env.marshalError obj) with
      | (_, some err) =>
        { globals := g
          w := httpError w "Failed to set event data" StatusInternalServerError
          calls := built ++ [.logPrintf ("failed to set data: " ++ err), .bodyClose] }
      | (e, none) =>
        match env.send g.ceClient e with
        | some result =>
          { globals := g
            w := httpError w "Failed to send event" StatusInternalServerError
            calls := built ++ [.send e,
              .logPrintf ("failed to send event, received NACK: " ++ result), .bodyClose] }
        | none =>
          { globals := g
            w := w.Write ("Event published with message: " ++ message ++ "\n")
            calls := built ++ [.send e,
              .logPrintf ("Successfully sent CloudEvent with message: " ++ message),
              .bodyClose] }

/-- The events `handleRequest` passed to `ceClient.Send`, in order. -/
def sentEvents : List Call → List Event
  | [] => []
  | .send e :: cs => e :: sentEvents cs
  | _ :: cs => sentEvents cs

/-- Whether a run ended the process: it made a `fatal` call. -/
def exited (calls : List Call) : Bool :=
  calls.any fun c => match c with
    | .fatal _ => true
    | _ => false

/-- What the world outside answers to `main`: the environment variables, the
errors of `cehttp.New` and `client.New`, and the error `http.ListenAndServe`
returns (`none`: the server keeps serving and the call does not return). -/
structure Startup where
  environ : String → Option String
  protocolNew : GoError
  clientNew : GoError
  listenAndServe : GoError

/-- The result of `main`: the calls made, and the package-level variables once
both are assigned (`none` when the process exited before that). -/
structure Started where
  calls : List Call
  globals : Option Globals
deriving DecidableEq, Repr

/-- The function `main()` of `apps/event-publisher/main.go`. -/
def main (o : Startup) : Started :=
  let sinkURL := Getenv o.environ "K_SINK"
  if sinkURL = "" then
    { calls := [.fatal ("K_SINK environment variable not set. " ++
        "This app is meant to run in a Knative environment.")]
      globals := none }
  else
    match o.protocolNew with
    | some err =>
      { calls := [.protocolNew sinkURL, .fatal ("failed to create http protocol: " ++ err)]
        globals := none }
    | none =>
      match o.clientNew with
      | some err =>
        { calls := [.protocolNew sinkURL, .clientNew sinkURL,
            .fatal ("failed to create cloudevents client: " ++ err)]
          globals := none }
      | none =>
        let ceClient : Client := { target := sinkURL, timeNow := true, uuids := true }
        let served : List Call :=
          [.protocolNew sinkURL, .clientNew sinkURL, .handleFunc "/",
            .logPrintln "Publisher listening on port 8080", .listenAndServe ":8080"]
        { calls :=
            match o.listenAndServe with
            | some err => served ++ [.fatal ("failed to start server: " ++ err)]
            | none => served
          globals := some { sinkURL := sinkURL, ceClient := ceClient } }

end Publisher

/-! ## The receiving side of the SDK -/

/-- The two shapes of callback that matter for `StartReceiver`: a Go function
`func(context.Context, event.Event)`, which has no result, and a function
`func(context.Context, event.Event) protocol.Result`, which reports one.  The
function value is what it prints and, for the second shape, what it returns. -/
inductive Callback where
  | noResult (fn : Event → List String)
  | withResult (fn : Event → List String × GoError)

/-- Modelled from the spec: the Dispatching state of the Receiver (§4.3), code of
the SDK that is not part of this repository.  The callback is invoked with the
envelope; what it prints and the failure it reports, if any.  A callback
without a result reports nothing. -/
def Callback.invoke : Callback → Event → List String × GoError
  | .noResult fn, e => (fn e, none)
  | .withResult fn, e => fn e

/-- Modelled from the spec: the response of the Receiver after dispatch (§4.3,
§8): a reported failure is answered with a server error, anything else with
success. -/
def receiverStatus : GoError → Nat
  | none => StatusOK
  | some _ => StatusInternalServerError

/-- The status with which the receiver answers a valid envelope `e` dispatched to
the callback `cb`. -/
def Callback.answer (cb : Callback) (e : Event) : Nat :=
  receiverStatus (cb.invoke e).2

/-! ## event-consumer -/

namespace Consumer

/-- The function `receiveEvent(ctx, e)` of `apps/event-consumer/main.go`: the lines
it logs.  `dataAs` is `e.DataAs(data)` for the local `struct { Message string }`:
the decoded `Message`, or the error. -/
def receiveEvent (dataAs : Event → Except String String) (e : Event) : List String :=
  let received : List String :=
    ["☁️  cloudevent received:", "  ID: " ++ e.id, "  Type: " ++ e.type,
      "  Source: " ++ e.source]
  match dataAs e with
  | .error err => received ++ ["❌ got error while decoding data: " ++ err]
  | .ok message =>
    received ++ ["  Data: " ++ message, "✅ cloudevent processed successfully"]

/-- The callback that `main` hands to `c.StartReceiver`: `receiveEvent`, a function
without a result. -/
def callback (dataAs : Event → Except String String) : Callback :=
  .noResult (receiveEvent dataAs)

end Consumer

/-! ## event-display -/

namespace Display

/-- The function `receiveHandler(ctx, event)` of `apps/event-display/main.go`: the
lines it logs. -/
def receiveHandler (event : Event) : List String :=
  ["Received a CloudEvent!", "  - Type: " ++ event.type, "  - Source: " ++ event.source,
    "  - Subject: " ++ event.subject.getD "", "  - Data: " ++ event.data]

/-- An option of `cloudevents.NewClientHTTP`. -/
inductive HTTPOption where
  | WithPort (port : String)
  | WithPath (path : String)
deriving DecidableEq, Repr

/-- The client returned by `cloudevents.NewClientHTTP(opts...)`: the port its
receiver listens on. -/
structure ClientHTTP where
  port : String
deriving DecidableEq, Repr

/-- The port the options select, if one of them is `WithPort`; the last one wins. -/
def selectedPort : List HTTPOption → Option String
  | [] => none
  | .WithPort p :: opts => (selectedPort opts).orElse fun _ => some p
  | .WithPath _ :: opts => selectedPort opts

/-- Modelled from the spec: the server side of the HTTP transport (§6), code of the
SDK that is not part of this repository: the receiver listens on the port it is
configured with, `8080` by default. -/
def NewClientHTTP (opts : List HTTPOption) : ClientHTTP :=
  { port := (selectedPort opts).getD "8080" }

/-- What the world outside answers to `main`: the environment variables, the error
of `cloudevents.NewClientHTTP` and the error `client.StartReceiver` returns
(`none`: the receiver keeps serving and the call does not return). -/
structure Startup where
  environ : String → Option String
  newClientHTTP : GoError
  startReceiver : GoError

/-- The result of `main`: the value of the local variable `port`, the client
whose receiver is started (`none` when it could not be created), the callback
given to `client.StartReceiver`, the lines logged, and the line of `log.Fatalf`
when the process exited. -/
structure Started where
  port : String
  client : Option ClientHTTP
  handler : Option Callback
  log : List String
  fatal : Option String

/-- The function `main()` of `apps/event-display/main.go`. -/
def main (o : Startup) : Started :=
  let port0 := Getenv o.environ "PORT"
  let port := if port0 = "" then "8080" else port0
  match o.newClientHTTP with
  | some err =>
    { port := port, client := none, handler := none, log := []
      fatal := some ("Failed to create client, " ++ err) }
  | none =>
    let client := NewClientHTTP []
    { port := port
      client := some client
      handler := some (.noResult receiveHandler)
      log := ["knative-event-display: starting server...",
        "knative-event-display: listening on port " ++ port]
      fatal := o.startReceiver.map fun err => "failed to start receiver: " ++ err }

end Display

/-! ## Concrete inputs -/

namespace Publisher

/-- The variables after `main` ran with `K_SINK=http://broker`. -/
def demoGlobals : Globals :=
  { sinkURL := "http://broker"
    ceClient := { target := "http://broker", timeNow := true, uuids := true } }

/-- A POST request whose body reads as `body`. -/
def post (body : String) : Request :=
  { method := "POST", readAll := .ok body }

/-- A world in which the data is encoded without error and every send returns `nil`. -/
def ackWorld : World :=
  { uuidNew := { byte := fun _ => 0 }
    marshalError := fun _ => none
    send := fun _ _ => none }

/-- A world in which the data is encoded without error and every send returns an
error. -/
def nackWorld : World :=
  { uuidNew := { byte := fun _ => 0 }
    marshalError := fun _ => none
    send := fun _ _ => some "500: " }

/-- A world in which the data is encoded without error and `Send` is that of the
SDK's HTTP protocol, the destination answering every delivery with `d`. -/
def sdkWorld (d : Delivery) : World :=
  { uuidNew := { byte := fun _ => 0 }
    marshalError := fun _ => none
    send := fun _ _ => httpSend d }

/-- A start without `K_SINK`; the calls of `main` succeed. -/
def noSink : Startup :=
  { environ := fun _ => none, protocolNew := none, clientNew := none, listenAndServe := none }

/-- A start with `K_SINK=http://broker`; the calls of `main` succeed. -/
def withSink : Startup :=
  { environ := fun key => if key = "K_SINK" then some "http://broker" else none
    protocolNew := none, clientNew := none, listenAndServe := none }

/-- The event `handleRequest` sends in `ackWorld` for the empty body. -/
def emptyBodyEvent : Event :=
  { specVersion := "1.0", id := ackWorld.uuidNew.String,
    source := "knative-demo-publisher", type := "com.example.ping", subject := none,
    dataContentType := some "application/json", time := none, data := JSON.Marshal [("message", "")] }

end Publisher

namespace Consumer

/-- A valid envelope that declares JSON data and carries bytes that are not JSON. -/
def badEvent : Event :=
  { specVersion := "1.0", id := "1", source := "test", type := "com.example.ping",
    subject := none, dataContentType := some "application/json", time := none,
    data := "not json" }

end Consumer

namespace Display

/-- A start with `PORT=9090`; the calls of `main` succeed. -/
def port9090 : Startup :=
  { environ := fun key => if key = "PORT" then some "9090" else none
    newClientHTTP := none, startReceiver := none }

end Display

/-! ## Theorems: JSON round trip -/

namespace JSON

theorem hexVal_hexDigit_fin : ∀ d : Fin 16, hexVal (hexDigit d.val) = some d.val := by
  decide

theorem hexVal_hexDigit (n : Nat) : hexVal (hexDigit n) = some (n % 16) := by
  have h := hexVal_hexDigit_fin ⟨n % 16, Nat.mod_lt _ (by decide)⟩
  have e : hexDigit (n % 16) = hexDigit n := by
    unfold hexDigit
    rw [Nat.mod_mod]
  simpa [e] using h

theorem getu4_hex4 (n : Nat) (h : n < 65536) (rest : List Char) :
    getu4 (hex4 n ++ rest) = some (n, rest) := by
  simp only [hex4, List.cons_append, List.nil_append, getu4, hexVal_hexDigit]
  simp only [Option.some.injEq, Prod.mk.injEq, and_true]
  omega

theorem unquoteU_hex4 (n : Nat) (h : n < 0xD800) (rest : List Char) :
    unquoteU (hex4 n ++ rest) = some (Char.ofNat n, rest) := by
  have hs : ¬ (0xD800 ≤ n ∧ n < 0xE000) := by omega
  unfold unquoteU
  rw [getu4_hex4 n (by omega)]
  simp only [hs, if_false]

theorem escapeChar_cases (c : Char) :
    (c = '"' ∧ escapeChar c = ['\\', '"']) ∨ (c = '\\' ∧ escapeChar c = ['\\', '\\']) ∨
    (c = '\x08' ∧ escapeChar c = ['\\', 'b']) ∨ (c = '\x0c' ∧ escapeChar c = ['\\', 'f']) ∨
    (c = '\n' ∧ escapeChar c = ['\\', 'n']) ∨ (c = '\r' ∧ escapeChar c = ['\\', 'r']) ∨
    (c = '\t' ∧ escapeChar c = ['\\', 't']) ∨
    (c.toNat < 0xD800 ∧ escapeChar c = '\\' :: 'u' :: hex4 c.toNat) ∨
    (c ≠ '"' ∧ c ≠ '\\' ∧ ¬ c.toNat < 0x20 ∧ escapeChar c = [c]) := by
  unfold escapeChar
  split_ifs with h1 h2 h3 h4 h5 h6 h7 h8
  · exact Or.inl ⟨h1, rfl⟩
  · exact Or.inr (Or.inl ⟨h2, rfl⟩)
  · exact Or.inr (Or.inr (Or.inl ⟨h3, rfl⟩))
  · exact Or.inr (Or.inr (Or.inr (Or.inl ⟨h4, rfl⟩)))
  · exact Or.inr (Or.inr (Or.inr (Or.inr (Or.inl ⟨h5, rfl⟩))))
  · exact Or.inr (Or.inr (Or.inr (Or.inr (Or.inr (Or.inl ⟨h6, rfl⟩)))))
  · exact Or.inr (Or.inr (Or.inr (Or.inr (Or.inr (Or.inr (Or.inl ⟨h7, rfl⟩))))))
  · refine Or.inr (Or.inr (Or.inr (Or.inr (Or.inr (Or.inr (Or.inr (Or.inl ⟨?_, rfl⟩)))))))
    rcases h8 with h | h | h | h | h | h
    · omega
    · subst h; decide
    · subst h; decide
    · subst h; decide
    · omega
    · omega
  · refine Or.inr (Or.inr (Or.inr (Or.inr (Or.inr (Or.inr (Or.inr (Or.inr ⟨h1, h2, ?_, rfl⟩)))))))
    intro h
    exact h8 (Or.inl h)

theorem unquoteChar_escapeChar (c : Char) (rest : List Char) :
    unquoteChar (escapeChar c ++ rest) = some (c, rest) := by
  rcases escapeChar_cases c with h | h | h | h | h | h | h | h | h
  · rw [h.2, h.1]; rfl
  · rw [h.2, h.1]; rfl
  · rw [h.2, h.1]; rfl
  · rw [h.2, h.1]; rfl
  · rw [h.2, h.1]; rfl
  · rw [h.2, h.1]; rfl
  · rw [h.2, h.1]; rfl
  · rw [h.2]
    show unquoteU (hex4 c.toNat ++ rest) = some (c, rest)
    rw [unquoteU_hex4 _ h.1, Char.ofNat_toNat]
  · obtain ⟨h1, h2, h3, h4⟩ := h
    rw [h4]
    show (if c = '\\' then unquoteEscape rest
      else if c.toNat < 0x20 ∨ c = '"' then none else some (c, rest)) = some (c, rest)
    rw [if_neg h2, if_neg]
    intro h
    rcases h with h | h
    · exact h3 h
    · exact h1 h

theorem escapeChar_head (c : Char) :
    ∃ a tl, escapeChar c = a :: tl ∧ a ≠ '"' := by
  rcases escapeChar_cases c with h | h | h | h | h | h | h | h | h
  · exact ⟨_, _, h.2, by decide⟩
  · exact ⟨_, _, h.2, by decide⟩
  · exact ⟨_, _, h.2, by decide⟩
  · exact ⟨_, _, h.2, by decide⟩
  · exact ⟨_, _, h.2, by decide⟩
  · exact ⟨_, _, h.2, by decide⟩
  · exact ⟨_, _, h.2, by decide⟩
  · exact ⟨_, _, h.2, by decide⟩
  · exact ⟨_, _, h.2.2.2, h.1⟩

theorem parseString_escape (s : List Char) :
    ∀ (fuel : Nat) (rest : List Char), s.length < fuel →
      parseString fuel (s.flatMap escapeChar ++ '"' :: rest) = some (s, rest) := by
  induction s with
  | nil =>
    intro fuel rest h
    cases fuel with
    | zero => omega
    | succ k => simp [parseString]
  | cons c s ih =>
    intro fuel rest h
    cases fuel with
    | zero => omega
    | succ k =>
      have hk : s.length < k := by simpa using h
      obtain ⟨a, tl, hat, ha⟩ := escapeChar_head c
      have hu := unquoteChar_escapeChar c (s.flatMap escapeChar ++ '"' :: rest)
      rw [List.flatMap_cons, List.append_assoc]
      rw [hat] at hu ⊢
      rw [List.cons_append] at hu ⊢
      rw [parseString, if_neg ha, hu]
      simp only [ih k rest hk]

theorem length_le_escape (s : List Char) : s.length ≤ (s.flatMap escapeChar).length := by
  induction s with
  | nil => simp
  | cons c s ih =>
    obtain ⟨a, tl, hat, -⟩ := escapeChar_head c
    rw [List.flatMap_cons, List.length_append, hat]
    simp only [List.length_cons]
    omega

theorem message_key (fuel : Nat) (rest : List Char) (h : 7 < fuel) :
    parseString fuel ('m' :: 'e' :: 's' :: 's' :: 'a' :: 'g' :: 'e' :: '"' :: rest)
      = some ("message".data, rest) := by
  have e : "message".data.flatMap escapeChar = "message".data := by decide
  have := parseString_escape "message".data fuel rest (by simpa using h)
  rw [e] at this
  exact this

theorem skipWS_cons (c : Char) (rest : List Char)
    (h : ¬ (c = ' ' ∨ c = '\t' ∨ c = '\r' ∨ c = '\n')) : skipWS (c :: rest) = c :: rest := by
  rw [skipWS, if_neg h]

theorem parseValue_Marshal (m : String) (j : Nat) (h : m.data.length + 7 < j) :
    parseValue (j + 3) (Marshal [("message", m)]).data
      = some (.object [("message".data, .string m.data)], []) := by
  have hs := parseString_escape m.data (j + 1) ['}'] (by omega)
  have hk := message_key (j + 2) (':' :: '"' :: (m.data.flatMap escapeChar ++ ['"', '}'])) (by omega)
  have hkey : "message".data.flatMap escapeChar = "message".data := by decide
  have hd : (Marshal [("message", m)]).data =
      '{' :: '"' :: 'm' :: 'e' :: 's' :: 's' :: 'a' :: 'g' :: 'e' :: '"' ::
      ':' :: '"' :: (m.data.flatMap escapeChar ++ ['"', '}']) := by
    simp [Marshal, marshalMembers, appendString, hkey]
  have hv : parseValue (j + 1) ('"' :: (m.data.flatMap escapeChar ++ ['"', '}']))
      = some (.string m.data, ['}']) := by
    rw [parseValue, skipWS_cons _ _ (by decide)]
    simp only [if_true, hs]
  have hm : parseMembers (j + 2) ('"' :: 'm' :: 'e' :: 's' :: 's' :: 'a' :: 'g' :: 'e' :: '"' ::
      ':' :: '"' :: (m.data.flatMap escapeChar ++ ['"', '}']))
      = some ([("message".data, .string m.data)], []) := by
    rw [parseMembers, skipWS_cons _ _ (by decide)]
    simp only [if_true, hk]
    rw [skipWS_cons _ _ (by decide)]
    simp only [if_true, hv]
    rw [skipWS_cons _ _ (by decide)]
    simp only [if_true]
  rw [hd, parseValue, skipWS_cons _ _ (by decide)]
  simp only [show ¬ ('{' = '"') by decide, if_false, if_true]
  rw [skipWS_cons _ _ (by decide)]
  simp only [show ¬ ('"' = '}') by decide, if_false, hm]

theorem parse_Marshal (m : String) :
    parse (Marshal [("message", m)]).data
      = some (.object [("message".data, .string m.data)]) := by
  have hkey : "message".data.flatMap escapeChar = "message".data := by decide
  have hl : (Marshal [("message", m)]).data.length
      = (m.data.flatMap escapeChar).length + 14 := by
    simp [Marshal, marshalMembers, appendString, hkey]
  have hle := length_le_escape m.data
  unfold parse
  rw [hl, show (m.data.flatMap escapeChar).length + 14 + 1
    = ((m.data.flatMap escapeChar).length + 12) + 3 from rfl,
    parseValue_Marshal m _ (by omega)]
  simp [skipWS]

theorem Unmarshal_Marshal (m : String) : Unmarshal (Marshal [("message", m)]) = .ok m := by
  unfold Unmarshal
  rw [parse_Marshal]
  have : matchesField "message".data "message".data = true := by decide
  simp [assignMessage, this]

theorem Marshal_ne_empty (obj : List (String × String)) : Marshal obj ≠ "" := by
  intro h
  have h2 := congrArg String.data h
  simp [Marshal] at h2

end JSON

theorem DataAs_Marshal (e : Event) (m : String) (hc : e.dataContentType = some ApplicationJSON)
    (hd : e.data = JSON.Marshal [("message", m)]) : DataAs e = .ok m := by
  unfold DataAs
  rw [hd, if_neg (JSON.Marshal_ne_empty _), hc]
  simp only [if_true, JSON.Unmarshal_Marshal]

/-! ## Theorems: trimming -/

theorem dropWhile_isSpace_keeps (l : List Char) (h : ∃ c ∈ l, isSpace c = false) :
    ∃ c ∈ l.dropWhile isSpace, isSpace c = false := by
  induction l with
  | nil => simp at h
  | cons a t ih =>
    by_cases ha : isSpace a = true
    · rw [List.dropWhile_cons_of_pos ha]
      apply ih
      obtain ⟨c, hc, hs⟩ := h
      rcases List.mem_cons.mp hc with rfl | hc
      · rw [ha] at hs
        cases hs
      · exact ⟨c, hc, hs⟩
    · rw [List.dropWhile_cons_of_neg ha]
      exact ⟨a, List.mem_cons_self _ _, by simpa using ha⟩

theorem TrimSpace_ne_empty (s : String) (h : ∃ c ∈ s.data, isSpace c = false) :
    TrimSpace s ≠ "" := by
  obtain ⟨c, hc, hs⟩ := dropWhile_isSpace_keeps _ h
  obtain ⟨d, hd, hds⟩ := dropWhile_isSpace_keeps (s.data.dropWhile isSpace).reverse
    ⟨c, List.mem_reverse.mpr hc, hs⟩
  intro he
  have h2 := congrArg String.data he
  simp only [TrimSpace] at h2
  have h3 : ((s.data.dropWhile isSpace).reverse.dropWhile isSpace) = [] := by
    simpa using h2
  rw [h3] at hd
  simp at hd

theorem isSpace_hexDigit_fin : ∀ d : Fin 16, isSpace (hexDigit d.val) = false := by
  decide

theorem isSpace_hexDigit (n : Nat) : isSpace (hexDigit n) = false := by
  have h := isSpace_hexDigit_fin ⟨n % 16, Nat.mod_lt _ (by decide)⟩
  have e : hexDigit (n % 16) = hexDigit n := by
    unfold hexDigit
    rw [Nat.mod_mod]
  simpa [e] using h

theorem TrimSpace_UUID_String (u : UUID) : TrimSpace u.String ≠ "" := by
  apply TrimSpace_ne_empty
  refine ⟨hexDigit (u.byte 0 % 256 / 16), ?_, isSpace_hexDigit _⟩
  simp [UUID.String, hexByte]

/-! ## Theorems: event-publisher -/

namespace Publisher

/-- The event `handleRequest` has built once `SetData` stored the encoded object. -/
theorem built_event (u : UUID) (m : String) :
    ((((Event.New.SetID u.String).SetType "com.example.ping").SetSource
      "knative-demo-publisher").SetData ApplicationJSON [("message", m)] none)
    = ({ specVersion := "1.0", id := u.String, source := "knative-demo-publisher",
         type := "com.example.ping", subject := none,
         dataContentType := some "application/json", time := none,
         data := JSON.Marshal [("message", m)] }, none) := by
  rfl

theorem handleRequest_of_not_post (env : World) (g : Globals) (w : ResponseWriter)
    (r : Request) (h : r.method ≠ MethodPost) :
    handleRequest env g w r =
      { globals := g
        w := httpError w "Only POST method is accepted" StatusMethodNotAllowed
        calls := [] } := by
  simp [handleRequest, h]

theorem handleRequest_of_read_error (env : World) (g : Globals) (w : ResponseWriter)
    (r : Request) (err : String) (h : r.method = MethodPost) (hb : r.readAll = .error err) :
    handleRequest env g w r =
      { globals := g
        w := httpError w "Error reading request body" StatusInternalServerError
        calls := [.readAll] } := by
  simp [handleRequest, h, hb]

theorem handleRequest_of_setData_error (env : World) (g : Globals) (w : ResponseWriter)
    (r : Request) (m err : String) (h : r.method = MethodPost) (hb : r.readAll = .ok m)
    (hd : env.marshalError [("message", m)] = some err) :
    handleRequest env g w r =
      { globals := g
        w := httpError w "Failed to set event data" StatusInternalServerError
        calls := [.readAll, .logPrintf ("Received message to publish: " ++ m), .eventNew,
          .uuidNew, .setData m, .logPrintf ("failed to set data: " ++ err), .bodyClose] } := by
  simp [handleRequest, h, hb, hd, Event.SetData]

theorem handleRequest_of_nack (env : World) (g : Globals) (w : ResponseWriter)
    (r : Request) (m result : String) (h : r.method = MethodPost) (hb : r.readAll = .ok m)
    (hd : env.marshalError [("message", m)] = none)
    (hs : env.send g.ceClient
      { specVersion := "1.0", id := env.uuidNew.String, source := "knative-demo-publisher",
        type := "com.example.ping", subject := none,
        dataContentType := some "application/json", time := none,
        data := JSON.Marshal [("message", m)] } = some result) :
    handleRequest env g w r =
      { globals := g
        w := httpError w "Failed to send event" StatusInternalServerError
        calls := [.readAll, .logPrintf ("Received message to publish: " ++ m), .eventNew,
          .uuidNew, .setData m,
          .send { specVersion := "1.0", id := env.uuidNew.String,
                  source := "knative-demo-publisher", type := "com.example.ping",
                  subject := none, dataContentType := some "application/json",
                  time := none, data := JSON.Marshal [("message", m)] },
          .logPrintf ("failed to send event, received NACK: " ++ result), .bodyClose] } := by
  simp [handleRequest, h, hb, hd, built_event, hs]

theorem handleRequest_of_ack (env : World) (g : Globals) (w : ResponseWriter)
    (r : Request) (m : String) (h : r.method = MethodPost) (hb : r.readAll = .ok m)
    (hd : env.marshalError [("message", m)] = none)
    (hs : env.send g.ceClient
      { specVersion := "1.0", id := env.uuidNew.String, source := "knative-demo-publisher",
        type := "com.example.ping", subject := none,
        dataContentType := some "application/json", time := none,
        data := JSON.Marshal [("message", m)] } = none) :
    handleRequest env g w r =
      { globals := g
        w := w.Write ("Event published with message: " ++ m ++ "\n")
        calls := [.readAll, .logPrintf ("Received message to publish: " ++ m), .eventNew,
          .uuidNew, .setData m,
          .send { specVersion := "1.0", id := env.uuidNew.String,
                  source := "knative-demo-publisher", type := "com.example.ping",
                  subject := none, dataContentType := some "application/json",
                  time := none, data := JSON.Marshal [("message", m)] },
          .logPrintf ("Successfully sent CloudEvent with message: " ++ m), .bodyClose] } := by
  simp [handleRequest, h, hb, hd, built_event, hs]

theorem httpError_fresh (msg : String) (code : Nat) :
    httpError ResponseWriter.fresh msg code = { status := some code, body := msg ++ "\n" } := by
  simp [httpError, ResponseWriter.fresh, ResponseWriter.WriteHeader, ResponseWriter.Write]

theorem Write_fresh (p : String) :
    ResponseWriter.fresh.Write p = { status := some 200, body := p } := by
  simp [ResponseWriter.fresh, ResponseWriter.WriteHeader, ResponseWriter.Write, StatusOK]

/-- Every event passed to `Send` has the fixed type and source, the JSON content
type, the JSON encoding of the object with the field `message` as data, no
subject and the generated id. -/
theorem sentEvents_attrs (env : World) (g : Globals) (w1 : ResponseWriter) (r1 : Request) :
    ∀ e ∈ sentEvents (handleRequest env g w1 r1).calls,
      e.type = "com.example.ping" ∧ e.source = "knative-demo-publisher" ∧
      e.dataContentType = some "application/json" ∧
      (∀ m1, r1.readAll = .ok m1 → e.data = JSON.Marshal [("message", m1)]) ∧
      e.subject = none ∧ e.id = env.uuidNew.String := by
  intro e he
  by_cases h1 : r1.method = MethodPost
  · cases hb1 : r1.readAll with
    | error err =>
      rw [handleRequest_of_read_error env g _ r1 err h1 hb1] at he
      simp [sentEvents] at he
    | ok m1 =>
      cases hd : env.marshalError [("message", m1)] with
      | some err =>
        rw [handleRequest_of_setData_error env g _ r1 m1 err h1 hb1 hd] at he
        simp [sentEvents] at he
      | none =>
        cases hs : env.send g.ceClient
          { specVersion := "1.0", id := env.uuidNew.String,
            source := "knative-demo-publisher", type := "com.example.ping",
            subject := none, dataContentType := some "application/json", time := none,
            data := JSON.Marshal [("message", m1)] } with
        | some result =>
          rw [handleRequest_of_nack env g _ r1 m1 result h1 hb1 hd hs] at he
          simp [sentEvents] at he
          subst he
          refine ⟨rfl, rfl, rfl, ?_, rfl, rfl⟩
          intro m2 h2
          cases h2
          rfl
        | none =>
          rw [handleRequest_of_ack env g _ r1 m1 h1 hb1 hd hs] at he
          simp [sentEvents] at he
          subst he
          refine ⟨rfl, rfl, rfl, ?_, rfl, rfl⟩
          intro m2 h2
          cases h2
          rfl
  · rw [handleRequest_of_not_post env g _ r1 h1] at he
    simp [sentEvents] at he

/-- The one event passed to `Send` when the data is set without error. -/
theorem sentEvents_of_marshal_ok (env : World) (g : Globals) (w : ResponseWriter)
    (r : Request) (m : String) (hm : r.method = MethodPost) (hb : r.readAll = .ok m)
    (hd : env.marshalError [("message", m)] = none) :
    sentEvents (handleRequest env g w r).calls =
      [{ specVersion := "1.0", id := env.uuidNew.String,
         source := "knative-demo-publisher", type := "com.example.ping",
         subject := none, dataContentType := some "application/json", time := none,
         data := JSON.Marshal [("message", m)] }] := by
  cases hs : env.send g.ceClient
    { specVersion := "1.0", id := env.uuidNew.String,
      source := "knative-demo-publisher", type := "com.example.ping",
      subject := none, dataContentType := some "application/json", time := none,
      data := JSON.Marshal [("message", m)] } with
  | some result =>
    rw [handleRequest_of_nack env g _ r m result hm hb hd hs]
    simp [sentEvents]
  | none =>
    rw [handleRequest_of_ack env g _ r m hm hb hd hs]
    simp [sentEvents]

/-- The path of `handleRequest` on which `Send` returns `nil`: for a POST request whose
body is read as `m`, if `ceClient.Send` was called on an event and returned `nil`,
the caller is answered with status 200 and the body
`Event published with message: m` and a newline. -/
theorem handleRequest_of_nil_result (env : World) (g : Globals) (r : Request) (m : String)
    (hm : r.method = MethodPost) (hb : r.readAll = .ok m)
    (hack : ∃ e, Call.send e ∈ (handleRequest env g ResponseWriter.fresh r).calls ∧
      env.send g.ceClient e = none) :
    (handleRequest env g ResponseWriter.fresh r).w.status = some 200 ∧
    (handleRequest env g ResponseWriter.fresh r).w.body
      = "Event published with message: " ++ m ++ "\n" := by
  obtain ⟨e, he, hnone⟩ := hack
  cases hd : env.marshalError [("message", m)] with
  | some err =>
    rw [handleRequest_of_setData_error env g _ r m err hm hb hd] at he
    simp at he
  | none =>
    cases hs : env.send g.ceClient
      { specVersion := "1.0", id := env.uuidNew.String, source := "knative-demo-publisher",
        type := "com.example.ping", subject := none,
        dataContentType := some "application/json", time := none,
        data := JSON.Marshal [("message", m)] } with
    | some result =>
      rw [handleRequest_of_nack env g _ r m result hm hb hd hs] at he
      simp at he
      rw [he, hs] at hnone
      exact absurd hnone (by simp)
    | none =>
      rw [handleRequest_of_ack env g _ r m hm hb hd hs, Write_fresh]
      simp

/-- C1, the code where the destination acknowledges.  The destination answers the
delivery with status 200, which is the outcome `Accepted`; the `Send` of the SDK's
HTTP protocol returns for it the result `200: `, which is not `nil`; `handleRequest`
takes every result that is not `nil` for a NACK, so the caller of the POST with
body `hello world` is answered with status 500 and `Failed to send event`, and the
log says `received NACK: 200: `.  Whatever the destination answers, the caller
gets status 500, never the confirmation. -/
theorem handleRequest_acknowledged_answers_500 :
    Delivery.accepted (.status 200) = true ∧
    httpSend (.status 200) = some "200: " ∧
    (handleRequest (sdkWorld (.status 200)) demoGlobals ResponseWriter.fresh
        (post "hello world")).w
      = { status := some 500, body := "Failed to send event\n" } ∧
    Call.logPrintf "failed to send event, received NACK: 200: " ∈
      (handleRequest (sdkWorld (.status 200)) demoGlobals ResponseWriter.fresh
        (post "hello world")).calls ∧
    (∀ (d : Delivery) (body : String),
      (handleRequest (sdkWorld d) demoGlobals ResponseWriter.fresh (post body)).w
        = { status := some 500, body := "Failed to send event\n" }) := by
  have all : ∀ (d : Delivery) (body : String),
      ∃ result, handleRequest (sdkWorld d) demoGlobals ResponseWriter.fresh (post body) =
        { globals := demoGlobals
          w := { status := some 500, body := "Failed to send event\n" }
          calls := [.readAll, .logPrintf ("Received message to publish: " ++ body),
            .eventNew, .uuidNew, .setData body,
            .send { specVersion := "1.0", id := (sdkWorld d).uuidNew.String,
                    source := "knative-demo-publisher", type := "com.example.ping",
                    subject := none, dataContentType := some "application/json",
                    time := none, data := JSON.Marshal [("message", body)] },
            .logPrintf ("failed to send event, received NACK: " ++ result),
            .bodyClose] } ∧ httpSend d = some result := by
    intro d body
    cases hs : httpSend d with
    | none => cases d <;> simp [httpSend] at hs
    | some result =>
      refine ⟨result, ?_, rfl⟩
      rw [handleRequest_of_nack (sdkWorld d) demoGlobals _ (post body) body result rfl rfl
        rfl hs, httpError_fresh]
      rfl
  have h200 : httpSend (.status 200) = some "200: " := by decide
  refine ⟨by decide, h200, ?_, ?_, ?_⟩
  · obtain ⟨result, h, -⟩ := all (.status 200) "hello world"
    rw [h]
  · obtain ⟨result, h, hr⟩ := all (.status 200) "hello world"
    rw [h200] at hr
    cases hr
    rw [h]
    simp
  · intro d body
    obtain ⟨result, h, -⟩ := all d body
    rw [h]

/-- C2 (publisher failure path).  For a POST request whose body is read, if a
delivery was attempted and rejected (`ceClient.Send` was called on an event and
returned a non-nil result), the caller is answered with status 500 and the body
`Failed to send event` and a newline, the confirmation is not written, and the
function returns without ending the process. -/
theorem handleRequest_rejected (env : World) (g : Globals) (r : Request) (m : String)
    (hm : r.method = MethodPost) (hb : r.readAll = .ok m)
    (hnack : ∃ e reason, Call.send e ∈ (handleRequest env g ResponseWriter.fresh r).calls ∧
      env.send g.ceClient e = some reason) :
    (handleRequest env g ResponseWriter.fresh r).w
      = { status := some 500, body := "Failed to send event\n" } ∧
    (handleRequest env g ResponseWriter.fresh r).w.body
      ≠ "Event published with message: " ++ m ++ "\n" ∧
    exited (handleRequest env g ResponseWriter.fresh r).calls = false := by
  obtain ⟨e, reason, he, hsome⟩ := hnack
  cases hd : env.marshalError [("message", m)] with
  | some err =>
    rw [handleRequest_of_setData_error env g _ r m err hm hb hd] at he
    simp at he
  | none =>
    cases hs : env.send g.ceClient
      { specVersion := "1.0", id := env.uuidNew.String, source := "knative-demo-publisher",
        type := "com.example.ping", subject := none,
        dataContentType := some "application/json", time := none,
        data := JSON.Marshal [("message", m)] } with
    | some result =>
      rw [handleRequest_of_nack env g _ r m result hm hb hd hs, httpError_fresh]
      refine ⟨rfl, ?_, by simp [exited]⟩
      intro h
      have h2 := congrArg String.data h
      simp at h2
    | none =>
      rw [handleRequest_of_ack env g _ r m hm hb hd hs] at he
      simp at he
      rw [he, hs] at hsome
      exact absurd hsome (by simp)

/-- Witness of C2: the body `hello world`, a destination that rejects. -/
theorem handleRequest_rejected_witness :
    (handleRequest nackWorld demoGlobals ResponseWriter.fresh (post "hello world")).w
      = { status := some 500, body := "Failed to send event\n" } ∧
    (handleRequest nackWorld demoGlobals ResponseWriter.fresh (post "hello world")).w.body
      ≠ "Event published with message: " ++ "hello world" ++ "\n" ∧
    exited (handleRequest nackWorld demoGlobals ResponseWriter.fresh
      (post "hello world")).calls = false :=
  handleRequest_rejected nackWorld demoGlobals (post "hello world") "hello world" rfl rfl
    ⟨_, "500: ", by simp [handleRequest, post, MethodPost, Event.SetData, nackWorld,
      ApplicationJSON]; rfl, rfl⟩

/-- C3 (method gate).  A request whose method is not POST is answered with status
405 and the body `Only POST method is accepted` and a newline, and nothing else is
done: the body is not read, no event is built, `Send` is not called.  A POST
request is never answered with 405. -/
theorem handleRequest_method_gate (env : World) (g : Globals) (r : Request) :
    (r.method ≠ MethodPost →
      (handleRequest env g ResponseWriter.fresh r).w
        = { status := some 405, body := "Only POST method is accepted\n" } ∧
      (handleRequest env g ResponseWriter.fresh r).calls = []) ∧
    (r.method = MethodPost →
      (handleRequest env g ResponseWriter.fresh r).w.status ≠ some 405) := by
  constructor
  · intro h
    rw [handleRequest_of_not_post env g _ r h, httpError_fresh]
    exact ⟨rfl, rfl⟩
  · intro hm
    cases hb : r.readAll with
    | error err =>
      rw [handleRequest_of_read_error env g _ r err hm hb, httpError_fresh]
      simp [StatusInternalServerError]
    | ok m =>
      cases hd : env.marshalError [("message", m)] with
      | some err =>
        rw [handleRequest_of_setData_error env g _ r m err hm hb hd, httpError_fresh]
        simp [StatusInternalServerError]
      | none =>
        cases hs : env.send g.ceClient
          { specVersion := "1.0", id := env.uuidNew.String,
            source := "knative-demo-publisher", type := "com.example.ping", subject := none,
            dataContentType := some "application/json", time := none,
            data := JSON.Marshal [("message", m)] } with
        | some result =>
          rw [handleRequest_of_nack env g _ r m result hm hb hd hs, httpError_fresh]
          simp [StatusInternalServerError]
        | none =>
          rw [handleRequest_of_ack env g _ r m hm hb hd hs, Write_fresh]
          simp

/-- Witness of C3: a GET request is answered with 405 and nothing is called; a POST
request is not answered with 405. -/
theorem handleRequest_method_gate_witness :
    ((handleRequest ackWorld demoGlobals ResponseWriter.fresh
        { method := "GET", readAll := .ok "hello world" }).w
      = { status := some 405, body := "Only POST method is accepted\n" } ∧
     (handleRequest ackWorld demoGlobals ResponseWriter.fresh
        { method := "GET", readAll := .ok "hello world" }).calls = []) ∧
    (handleRequest ackWorld demoGlobals ResponseWriter.fresh (post "hello world")).w.status
      ≠ some 405 :=
  ⟨(handleRequest_method_gate ackWorld demoGlobals
      { method := "GET", readAll := .ok "hello world" }).1 (by decide),
   (handleRequest_method_gate ackWorld demoGlobals (post "hello world")).2 rfl⟩

/-- C4 (envelope built by the publisher).  For a POST request whose body is read
as `m`, every event passed to `Send` has the type `com.example.ping`, the source
`knative-demo-publisher`, the content type `application/json`, as data the JSON
encoding of the object with the one field `message` set to `m`, that is the text
`{"message":` followed by `m` as a JSON string literal and `}`, no subject, and as
id the string of the generated UUID; when the encoder does not fail, exactly that
event is passed; and id, type and source are the same whatever the request. -/
theorem handleRequest_envelope (env : World) (g : Globals) (w : ResponseWriter)
    (r : Request) (m : String) (hm : r.method = MethodPost) (hb : r.readAll = .ok m) :
    (∀ e ∈ sentEvents (handleRequest env g w r).calls,
      e.type = "com.example.ping" ∧ e.source = "knative-demo-publisher" ∧
      e.dataContentType = some "application/json" ∧
      e.data = JSON.Marshal [("message", m)] ∧
      e.data.data = "\x7b\"message\":".data ++ JSON.appendString m.data ++ "\x7d".data ∧
      e.subject = none ∧ e.id = env.uuidNew.String) ∧
    (env.marshalError [("message", m)] = none →
      sentEvents (handleRequest env g w r).calls =
        [{ specVersion := "1.0", id := env.uuidNew.String,
           source := "knative-demo-publisher", type := "com.example.ping",
           subject := none, dataContentType := some "application/json", time := none,
           data := JSON.Marshal [("message", m)] }]) ∧
    (∀ (w2 : ResponseWriter) (r2 : Request),
      ∀ e ∈ sentEvents (handleRequest env g w r).calls,
      ∀ e2 ∈ sentEvents (handleRequest env g w2 r2).calls,
        e.id = e2.id ∧ e.type = e2.type ∧ e.source = e2.source) := by
  refine ⟨?_, ?_, ?_⟩
  · intro e he
    obtain ⟨h1, h2, h3, h4, h5, h6⟩ := sentEvents_attrs env g w r e he
    refine ⟨h1, h2, h3, h4 m hb, ?_, h5, h6⟩
    rw [h4 m hb]
    have hkey : "message".data.flatMap JSON.escapeChar = "message".data := by decide
    simp [JSON.Marshal, JSON.marshalMembers, JSON.appendString, hkey]
  · intro hd
    exact sentEvents_of_marshal_ok env g w r m hm hb hd
  · intro w2 r2 e he e2 he2
    obtain ⟨h1, h2, -, -, -, h6⟩ := sentEvents_attrs env g w r e he
    obtain ⟨k1, k2, -, -, -, k6⟩ := sentEvents_attrs env g w2 r2 e2 he2
    exact ⟨h6.trans k6.symm, h1.trans k1.symm, h2.trans k2.symm⟩

/-- Witness of C4: the body `hello world` of scenario B; the data of the event that is
sent is `{"message":"hello world"}`. -/
theorem handleRequest_envelope_witness :
    sentEvents (handleRequest ackWorld demoGlobals ResponseWriter.fresh
      (post "hello world")).calls =
      [{ specVersion := "1.0", id := ackWorld.uuidNew.String,
         source := "knative-demo-publisher", type := "com.example.ping",
         subject := none, dataContentType := some "application/json", time := none,
         data := JSON.Marshal [("message", "hello world")] }] ∧
    JSON.Marshal [("message", "hello world")] = "\x7b\"message\":\"hello world\"\x7d" :=
  ⟨(handleRequest_envelope ackWorld demoGlobals ResponseWriter.fresh (post "hello world")
    "hello world" rfl rfl).2.1 rfl, by decide⟩

/-- C5 (one delivery attempt).  `handleRequest` calls `Send` at most once, and
exactly once just when the method is POST, the body is read and the data is set
without error; otherwise not at all.  A rejected attempt is not repeated. -/
theorem handleRequest_sends_once (env : World) (g : Globals) (w : ResponseWriter)
    (r : Request) :
    (sentEvents (handleRequest env g w r).calls).length ≤ 1 ∧
    ((sentEvents (handleRequest env g w r).calls).length = 1 ↔
      r.method = MethodPost ∧
      ∃ m, r.readAll = .ok m ∧ env.marshalError [("message", m)] = none) ∧
    ((sentEvents (handleRequest env g w r).calls).length = 0 ↔
      r.method ≠ MethodPost ∨ (∃ err, r.readAll = .error err) ∨
      ∃ m err, r.readAll = .ok m ∧ env.marshalError [("message", m)] = some err) := by
  by_cases hm : r.method = MethodPost
  · cases hb : r.readAll with
    | error err =>
      rw [handleRequest_of_read_error env g _ r err hm hb]
      simp [sentEvents, hm]
    | ok m =>
      cases hd : env.marshalError [("message", m)] with
      | some err =>
        rw [handleRequest_of_setData_error env g _ r m err hm hb hd]
        simp [sentEvents, hm, hd]
      | none =>
        cases hs : env.send g.ceClient
          { specVersion := "1.0", id := env.uuidNew.String,
            source := "knative-demo-publisher", type := "com.example.ping",
            subject := none, dataContentType := some "application/json", time := none,
            data := JSON.Marshal [("message", m)] } with
        | some result =>
          rw [handleRequest_of_nack env g _ r m result hm hb hd hs]
          simp [sentEvents, hm, hd]
        | none =>
          rw [handleRequest_of_ack env g _ r m hm hb hd hs]
          simp [sentEvents, hm, hd]
  · rw [handleRequest_of_not_post env g _ r hm]
    simp [sentEvents, hm]

/-- Witness of C5: a POST request with a readable body leads to one call of `Send`,
also when the destination rejects; a GET request to none. -/
theorem handleRequest_sends_once_witness :
    (sentEvents (handleRequest nackWorld demoGlobals ResponseWriter.fresh
      (post "hello world")).calls).length = 1 ∧
    (sentEvents (handleRequest nackWorld demoGlobals ResponseWriter.fresh
      { method := "GET", readAll := .ok "hello world" }).calls).length = 0 :=
  ⟨(handleRequest_sends_once nackWorld demoGlobals ResponseWriter.fresh
      (post "hello world")).2.1.2 ⟨rfl, "hello world", rfl, rfl⟩,
   (handleRequest_sends_once nackWorld demoGlobals ResponseWriter.fresh
      { method := "GET", readAll := .ok "hello world" }).2.2.2 (Or.inl (by decide))⟩

/-- C8 (missing destination is fatal at startup).  When `K_SINK` is unset or empty,
`main` does nothing but end the process with the fatal error: no protocol and no
client is created, no handler registered, no server started.  When `K_SINK` is not
empty, the protocol is created first, with exactly that value as target; when
the protocol and the client are created without error, the client is created
on that protocol, `sinkURL` and `ceClient` are assigned with that value as
target, and only then the handler is registered and the server started;
`handleRequest` leaves both variables as they are. -/
theorem main_K_SINK (o : Startup) :
    (o.environ "K_SINK" = none ∨ o.environ "K_SINK" = some "" →
      (main o).calls = [.fatal ("K_SINK environment variable not set. " ++
        "This app is meant to run in a Knative environment.")] ∧
      (main o).globals = none) ∧
    (∀ sink, o.environ "K_SINK" = some sink → sink ≠ "" →
      (main o).calls.head? = some (.protocolNew sink) ∧
      (∀ g, (main o).globals = some g → g.sinkURL = sink ∧ g.ceClient.target = sink) ∧
      (o.protocolNew = none → o.clientNew = none →
        (main o).globals = some
          { sinkURL := sink
            ceClient := { target := sink, timeNow := true, uuids := true } } ∧
        (main o).calls.take 5 =
          [.protocolNew sink, .clientNew sink, .handleFunc "/",
            .logPrintln "Publisher listening on port 8080", .listenAndServe ":8080"])) ∧
    (∀ (env : World) (g : Globals) (w : ResponseWriter) (r : Request),
      (handleRequest env g w r).globals = g) := by
  refine ⟨?_, ?_, ?_⟩
  · intro h
    have hg : Getenv o.environ "K_SINK" = "" := by
      rcases h with h | h <;> simp [Getenv, h]
    simp [main, hg]
  · intro sink hs hne
    have hg : Getenv o.environ "K_SINK" = sink := by simp [Getenv, hs]
    cases hp : o.protocolNew with
    | some err => simp [main, hg, hne, hp]
    | none =>
      cases hc : o.clientNew with
      | some err => simp [main, hg, hne, hp, hc]
      | none =>
        cases hl : o.listenAndServe with
        | some err =>
          have hmain : main o =
              { calls := [.protocolNew sink, .clientNew sink, .handleFunc "/",
                  .logPrintln "Publisher listening on port 8080", .listenAndServe ":8080",
                  .fatal ("failed to start server: " ++ err)]
                globals := some { sinkURL := sink
                                  ceClient := { target := sink, timeNow := true,
                                                uuids := true } } } := by
            simp [main, hg, hne, hp, hc, hl]
          rw [hmain]
          refine ⟨rfl, ?_, ?_⟩
          · intro g hgl
            cases hgl
            exact ⟨rfl, rfl⟩
          · intro _ _
            exact ⟨rfl, rfl⟩
        | none =>
          have hmain : main o =
              { calls := [.protocolNew sink, .clientNew sink, .handleFunc "/",
                  .logPrintln "Publisher listening on port 8080", .listenAndServe ":8080"]
                globals := some { sinkURL := sink
                                  ceClient := { target := sink, timeNow := true,
                                                uuids := true } } } := by
            simp [main, hg, hne, hp, hc, hl]
          rw [hmain]
          refine ⟨rfl, ?_, ?_⟩
          · intro g hgl
            cases hgl
            exact ⟨rfl, rfl⟩
          · intro _ _
            exact ⟨rfl, rfl⟩
  · intro env g w r
    by_cases hm : r.method = MethodPost
    · cases hb : r.readAll with
      | error err => rw [handleRequest_of_read_error env g _ r err hm hb]
      | ok m =>
        cases hd : env.marshalError [("message", m)] with
        | some err => rw [handleRequest_of_setData_error env g _ r m err hm hb hd]
        | none =>
          cases hs : env.send g.ceClient
            { specVersion := "1.0", id := env.uuidNew.String,
              source := "knative-demo-publisher", type := "com.example.ping",
              subject := none, dataContentType := some "application/json", time := none,
              data := JSON.Marshal [("message", m)] } with
          | some result => rw [handleRequest_of_nack env g _ r m result hm hb hd hs]
          | none => rw [handleRequest_of_ack env g _ r m hm hb hd hs]
    · rw [handleRequest_of_not_post env g _ r hm]

/-- Witness of C8: without `K_SINK` the process only exits; with
`K_SINK=http://broker` the protocol is created with that target, the client is
created, the variables are assigned with that target, and the handler is
registered and the server started. -/
theorem main_K_SINK_witness :
    ((main noSink).calls = [.fatal ("K_SINK environment variable not set. " ++
        "This app is meant to run in a Knative environment.")] ∧
      (main noSink).globals = none) ∧
    ((main withSink).calls.head? = some (.protocolNew "http://broker") ∧
      (∀ g, (main withSink).globals = some g →
        g.sinkURL = "http://broker" ∧ g.ceClient.target = "http://broker") ∧
      (withSink.protocolNew = none → withSink.clientNew = none →
        (main withSink).globals = some
          { sinkURL := "http://broker"
            ceClient := { target := "http://broker", timeNow := true, uuids := true } } ∧
        (main withSink).calls.take 5 =
          [.protocolNew "http://broker", .clientNew "http://broker", .handleFunc "/",
            .logPrintln "Publisher listening on port 8080", .listenAndServe ":8080"])) ∧
    ((main withSink).globals = some demoGlobals ∧
      (main withSink).calls =
        [.protocolNew "http://broker", .clientNew "http://broker", .handleFunc "/",
          .logPrintln "Publisher listening on port 8080", .listenAndServe ":8080"]) :=
  ⟨(main_K_SINK noSink).1 (Or.inl rfl),
   (main_K_SINK withSink).2.1 "http://broker" rfl (by decide),
   ((main_K_SINK withSink).2.1 "http://broker" rfl (by decide)).2.2 rfl rfl⟩

/-- C10 (required attributes of outbound events).  Every event that `handleRequest`
passes to `Send`, whatever the request body, has an id, a source and a type that
are not empty after trimming white space, so the validation of the required
attributes before transmission accepts it. -/
theorem handleRequest_sends_valid (env : World) (g : Globals) (w : ResponseWriter)
    (r : Request) :
    ∀ e ∈ sentEvents (handleRequest env g w r).calls,
      TrimSpace e.id ≠ "" ∧ TrimSpace e.source ≠ "" ∧ TrimSpace e.type ≠ "" ∧
      e.Valid = true := by
  intro e he
  obtain ⟨h1, h2, -, -, -, h6⟩ := sentEvents_attrs env g w r e he
  have hid : TrimSpace e.id ≠ "" := by
    rw [h6]
    exact TrimSpace_UUID_String _
  have hsrc : TrimSpace e.source ≠ "" := by
    rw [h2]
    decide
  have htyp : TrimSpace e.type ≠ "" := by
    rw [h1]
    decide
  refine ⟨hid, hsrc, htyp, ?_⟩
  simp [Event.Valid, hid, hsrc, htyp]

/-- Witness of C10: the event sent for the empty body. -/
theorem handleRequest_sends_valid_witness :
    emptyBodyEvent ∈ sentEvents (handleRequest ackWorld demoGlobals ResponseWriter.fresh
      (post "")).calls ∧
    (TrimSpace emptyBodyEvent.id ≠ "" ∧ TrimSpace emptyBodyEvent.source ≠ "" ∧
      TrimSpace emptyBodyEvent.type ≠ "" ∧ emptyBodyEvent.Valid = true) :=
  have mem : emptyBodyEvent ∈ sentEvents (handleRequest ackWorld demoGlobals
      ResponseWriter.fresh (post "")).calls := by
    rw [sentEvents_of_marshal_ok ackWorld demoGlobals _ (post "") "" rfl rfl rfl]
    exact List.mem_singleton.mpr rfl
  ⟨mem, handleRequest_sends_valid ackWorld demoGlobals ResponseWriter.fresh (post "")
    emptyBodyEvent mem⟩

/-- C9 (payload round trip from publisher to consumer).  For a request body `m`
(a text, that is valid UTF-8), the event that the publisher passes to `Send`
carries the content type `application/json` and the JSON encoding of the object
with the field `message` set to `m`; the consumer's `DataAs` decodes it without
error into the message `m`, and `receiveEvent` takes its success branch. -/
theorem publisher_payload_round_trip (env : World) (g : Globals) (w : ResponseWriter)
    (r : Request) (m : String) (hm : r.method = MethodPost) (hb : r.readAll = .ok m)
    (hj : env.marshalError [("message", m)] = none) :
    ∃ e, sentEvents (handleRequest env g w r).calls = [e] ∧
      e.dataContentType = some "application/json" ∧
      e.data = JSON.Marshal [("message", m)] ∧
      DataAs e = .ok m ∧
      Consumer.receiveEvent DataAs e =
        ["☁️  cloudevent received:", "  ID: " ++ e.id, "  Type: " ++ e.type,
          "  Source: " ++ e.source, "  Data: " ++ m,
          "✅ cloudevent processed successfully"] := by
  have hd : DataAs
      { specVersion := "1.0", id := env.uuidNew.String, source := "knative-demo-publisher",
        type := "com.example.ping", subject := none,
        dataContentType := some "application/json", time := none,
        data := JSON.Marshal [("message", m)] } = .ok m :=
    DataAs_Marshal _ m rfl rfl
  refine ⟨_, sentEvents_of_marshal_ok env g w r m hm hb hj, rfl, rfl, hd, ?_⟩
  simp only [Consumer.receiveEvent, hd]
  rfl

/-- Witness of C9: the body `hi` of scenario C. -/
theorem publisher_payload_round_trip_witness :
    ∃ e, sentEvents (handleRequest ackWorld demoGlobals ResponseWriter.fresh
        (post "hi")).calls = [e] ∧
      e.dataContentType = some "application/json" ∧
      e.data = JSON.Marshal [("message", "hi")] ∧
      DataAs e = .ok "hi" ∧
      Consumer.receiveEvent DataAs e =
        ["☁️  cloudevent received:", "  ID: " ++ e.id, "  Type: " ++ e.type,
          "  Source: " ++ e.source, "  Data: " ++ "hi",
          "✅ cloudevent processed successfully"] :=
  publisher_payload_round_trip ackWorld demoGlobals ResponseWriter.fresh (post "hi") "hi"
    rfl rfl rfl

end Publisher

/-! ## Theorems: event-consumer -/

namespace Consumer

/-- C6, the claim as stated fails.  The event `badEvent` is a valid envelope whose
data does not decode, and yet `receiveEvent` reports no failure to the receiver,
which answers with 200, not with a server error. -/
theorem receiveEvent_decode_error_unreported :
    badEvent.Valid = true ∧ DataAs badEvent = .error "invalid character" ∧
    ((callback DataAs).invoke badEvent).2 = none ∧
    (callback DataAs).answer badEvent = 200 ∧
    ¬ (500 ≤ (callback DataAs).answer badEvent ∧ (callback DataAs).answer badEvent < 600) := by
  refine ⟨by decide, rfl, rfl, rfl, by decide⟩

/-- C6 as amended.  For every envelope whose data cannot be decoded, `receiveEvent`
logs the received attributes and the decoding error and returns without the
success lines; the function has no result, so no failure is reported to the
receiver, which answers as it does for a successful callback, with 200. -/
theorem receiveEvent_decode_error (dataAs : Event → Except String String) (e : Event)
    (err : String) (h : dataAs e = .error err) :
    receiveEvent dataAs e =
      ["☁️  cloudevent received:", "  ID: " ++ e.id, "  Type: " ++ e.type,
        "  Source: " ++ e.source, "❌ got error while decoding data: " ++ err] ∧
    ((callback dataAs).invoke e).2 = none ∧
    (callback dataAs).answer e = 200 := by
  refine ⟨?_, rfl, rfl⟩
  simp only [receiveEvent, h]
  rfl

/-- Witness of C6 as amended: the event `badEvent`. -/
theorem receiveEvent_decode_error_witness :
    receiveEvent DataAs badEvent =
      ["☁️  cloudevent received:", "  ID: " ++ badEvent.id, "  Type: " ++ badEvent.type,
        "  Source: " ++ badEvent.source,
        "❌ got error while decoding data: " ++ "invalid character"] ∧
    ((callback DataAs).invoke badEvent).2 = none ∧
    (callback DataAs).answer badEvent = 200 :=
  receiveEvent_decode_error DataAs badEvent "invalid character" rfl

end Consumer

/-! ## Theorems: event-display -/

namespace Display

/-- C7, the code at `PORT=9090`: `main` computes the port `9090` and logs that it
listens on it, but creates the client without any option, so the receiver
listens on the default port `8080`. -/
theorem main_ignores_PORT :
    (main port9090).port = "9090" ∧
    (main port9090).log = ["knative-event-display: starting server...",
      "knative-event-display: listening on port 9090"] ∧
    (main port9090).client = some { port := "8080" } ∧
    (main port9090).client ≠ some { port := (main port9090).port } := by
  decide

end Display

end Knative
